import Mathlib

/-!
Shallow embedding of scripts/contrib_tracker.py.

The script fetches paginated contribution data from a REST API, aggregates
per-participant counters, sorts, and renders a markdown leaderboard.  Network
responses are modelled as explicit values: each pagination loop consumes a
list of responses, one per HTTP request made, in the order the network
delivers them.  The trace of page numbers requested is recorded alongside
the result so that retry behaviour can be stated.  Machine integers are
modelled as Int (Python integers are unbounded).
-/

namespace ContribTracker

/-- PER_PAGE = 100 from the script. -/
def PER_PAGE : Nat := 100

/-- The status code and the two rate-limit headers of an HTTP response:
X-RateLimit-Remaining (a string header, absent = none) and
X-RateLimit-Reset (a numeric timestamp header, absent = none). -/
structure RespHead where
  status : Nat
  rateLimitRemaining : Option String
  rateLimitReset : Option Int
deriving DecidableEq, Repr

/-- A paginated-endpoint response: headers plus a JSON array body. -/
structure Response (α : Type) extends RespHead where
  body : List α
deriving DecidableEq, Repr

/-- handle_rate_limit(resp): if status == 403 and the Remaining header is the
string "0" and a Reset header is present, sleeps max(0, reset - now) + 2
seconds and returns True; otherwise returns False without sleeping.
Modelled as a pure function of the current time and the response returning
(retry flag, sleep duration performed). -/
def handle_rate_limit (now : Int) (resp : RespHead) : Bool × Option Int :=
  if resp.status = 403 then
    match resp.rateLimitRemaining, resp.rateLimitReset with
    | some rem, some reset =>
        if rem = "0" then (true, some (max 0 (reset - now) + 2)) else (false, none)
    | _, _ => (false, none)
  else (false, none)

/-- One element of the contributors endpoint body: a dict with an optional
"login" field and a "contributions" field (default 0 via .get). -/
structure Contributor where
  login : Option String
  contributions : Int
deriving DecidableEq, Repr

/-- The loop body of fetch_contributors_for_repo.  The stream holds the
responses the network returns, one per request; page is the page counter;
acc the contributors collected so far; trace the pages requested so far.
Returns (some items) when the loop breaks, none if the response stream is
exhausted while the loop would still issue a request; the page trace is
returned in both cases. -/
def fetchContributorsAux (now : Int) :
    List (Response Contributor) → Nat → List Contributor → List Nat →
    Option (List Contributor) × List Nat
  | [], _, _, trace => (none, trace)
  | resp :: rest, page, acc, trace =>
    if (handle_rate_limit now resp.toRespHead).1 then
      fetchContributorsAux now rest page acc (trace ++ [page])
    else if resp.status ≠ 200 then (some acc, trace ++ [page])
    else if resp.body = [] then (some acc, trace ++ [page])
    else if resp.body.length < PER_PAGE then (some (acc ++ resp.body), trace ++ [page])
    else fetchContributorsAux now rest (page + 1) (acc ++ resp.body) (trace ++ [page])

/-- fetch_contributors_for_repo: paginate from page 1 with an empty
accumulator. -/
def fetch_contributors_for_repo (now : Int) (stream : List (Response Contributor)) :
    Option (List Contributor) × List Nat :=
  fetchContributorsAux now stream 1 [] []

/-- One element of the issues endpoint body: only the truthiness of its
"pull_request" field matters to the script. -/
structure IssueItem where
  pull_request : Bool
deriving DecidableEq, Repr

/-- The classification loop over one page of issue items: each item with a
truthy pull_request marker increments the PR count, every other item the
issue count. -/
def countIssueItems : List IssueItem → Nat × Nat → Nat × Nat
  | [], acc => acc
  | it :: rest, (ic, pc) =>
      countIssueItems rest (if it.pull_request then (ic, pc + 1) else (ic + 1, pc))

/-- The loop body of fetch_issues_and_prs_for_author, shaped like
fetchContributorsAux: returns (some (issues, prs)) when the loop breaks,
none on stream exhaustion, plus the page trace. -/
def fetchIssuesAux (now : Int) :
    List (Response IssueItem) → Nat → Nat → Nat → List Nat →
    Option (Nat × Nat) × List Nat
  | [], _, _, _, trace => (none, trace)
  | resp :: rest, page, ic, pc, trace =>
    if (handle_rate_limit now resp.toRespHead).1 then
      fetchIssuesAux now rest page ic pc (trace ++ [page])
    else if resp.status ≠ 200 then (some (ic, pc), trace ++ [page])
    else if resp.body = [] then (some (ic, pc), trace ++ [page])
    else if resp.body.length < PER_PAGE then
      (some (countIssueItems resp.body (ic, pc)), trace ++ [page])
    else
      fetchIssuesAux now rest (page + 1) (countIssueItems resp.body (ic, pc)).1
        (countIssueItems resp.body (ic, pc)).2 (trace ++ [page])

/-- fetch_issues_and_prs_for_author: paginate from page 1 with both counts 0. -/
def fetch_issues_and_prs_for_author (now : Int) (stream : List (Response IssueItem)) :
    Option (Nat × Nat) × List Nat :=
  fetchIssuesAux now stream 1 0 0 []

/-- The users endpoint response: headers plus the two profile fields the
script reads. -/
structure UserResponse extends RespHead where
  avatar_url : Option String
  html_url : Option String
deriving DecidableEq, Repr

/-- The record get_user_meta returns. -/
structure UserMeta where
  avatar : String
  url : String
deriving DecidableEq, Repr

/-- get_user_meta(login): one request; if it signals a rate limit, one
retry (modelled by the second response).  On a 200 the avatar_url field
(default "") and html_url field (default the constructed profile URL) are
returned; on anything else the fallback record. -/
def get_user_meta (now : Int) (login : String) (resp1 resp2 : UserResponse) : UserMeta :=
  let resp := if (handle_rate_limit now resp1.toRespHead).1 then resp2 else resp1
  if resp.status = 200 then
    { avatar := resp.avatar_url.getD ""
      url := resp.html_url.getD ("https://github.com/" ++ login) }
  else
    { avatar := "", url := "https://github.com/" ++ login }

/-- defaultdict(int) update: counts[l] += v. -/
def updateCount (counts : String → Int) (l : String) (v : Int) : String → Int :=
  fun x => if x = l then counts x + v else counts x

/-- The body of the contributors aggregation loop in main: skip items with
no login, skip logins outside the participant set, otherwise add the
contributions count of the item into commits_counts. -/
def processContributor (participants : List String) (counts : String → Int)
    (c : Contributor) : String → Int :=
  match c.login with
  | none => counts
  | some l => if l ∈ participants then updateCount counts l c.contributions else counts

/-- The contributors of one repo folded into commits_counts. -/
def processRepo (participants : List String) (counts : String → Int)
    (cs : List Contributor) : String → Int :=
  cs.foldl (processContributor participants) counts

/-- commits_counts after the loop of main over all repos, given the
contributor list the fetch of each repo returned.  All counters start at 0 (defaultdict). -/
def commitsCountsRun (participants : List String) (contribLists : List (List Contributor)) :
    String → Int :=
  contribLists.foldl (processRepo participants) (fun _ => 0)

/-- The body of the PR/issue loop in main for one (repo, login) pair: the
(issue count, PR count) pair fetch_issues_and_prs_for_author returned is
added into (issues_counts, prs_counts), each only when nonzero (the
script guards each addition with a truthiness test). -/
def issuesPrsStep (fetch : String → String → Nat × Nat) (repo : String)
    (ip : (String → Int) × (String → Int)) (login : String) :
    (String → Int) × (String → Int) :=
  (if (fetch repo login).1 ≠ 0 then updateCount ip.1 login ((fetch repo login).1 : Int)
   else ip.1,
   if (fetch repo login).2 ≠ 0 then updateCount ip.2 login ((fetch repo login).2 : Int)
   else ip.2)

/-- (issues_counts, prs_counts) after the optional PR/issue loop in main: for
each repo, for each participant, one issuesPrsStep. -/
def issuesPrsRun (participants : List String) (repos : List String)
    (fetch : String → String → Nat × Nat) : (String → Int) × (String → Int) :=
  repos.foldl
    (fun ip repo => participants.foldl (issuesPrsStep fetch repo) ip)
    (fun _ => 0, fun _ => 0)

/-- The per-user record main builds before sorting. -/
structure UserData where
  avatar : String
  url : String
  commits : Int
  prs : Int
  issues : Int
deriving DecidableEq, Repr

/-- The users dict built in main: for each participant, read the three counters,
skip the participant when zero-inclusion is off and the total is 0,
otherwise attach the metadata.  meta stands for the result of get_user_meta. -/
def buildUsers (includeZero : Bool) (participants : List String)
    (commits prs issues : String → Int) (meta : String → UserMeta) :
    List (String × UserData) :=
  participants.filterMap fun login =>
    if includeZero = false ∧ commits login + prs login + issues login = 0 then none
    else some (login,
      { avatar := (meta login).avatar
        url := (meta login).url
        commits := commits login
        prs := prs login
        issues := issues login })

/-- The sort key of main: total when include_prs_issues is set, commits
otherwise. -/
def sortKey (includePrsIssues : Bool) (d : UserData) : Int :=
  if includePrsIssues then d.commits + d.prs + d.issues else d.commits

/-- sorted(users.items(), key=..., reverse=True): a stable sort into
non-increasing key order. -/
def sortUsers (includePrsIssues : Bool) (users : List (String × UserData)) :
    List (String × UserData) :=
  users.mergeSort fun a b =>
    decide (sortKey includePrsIssues b.2 ≤ sortKey includePrsIssues a.2)

/-- The avatar cell: an img tag when the avatar string is truthy
(nonempty), else empty. -/
def avatarMdOf (avatar : String) : String :=
  if avatar ≠ "" then
    "<img src=\"" ++ avatar ++
      "\" width=\"40\" height=\"40\" style=\"border-radius:50%\"/>"
  else ""

/-- A row of the PR/issue layout: the values interpolated into the row
f-string of build_markdown when include_prs_issues is set. -/
structure RowFull where
  rank : Nat
  avatarMd : String
  login : String
  url : String
  commits : Int
  prs : Int
  issues : Int
  total : Int
deriving DecidableEq, Repr

/-- The enumerate(sorted_users, 1) loop of the PR/issue layout. -/
def buildRowsFullAux : Nat → List (String × UserData) → List RowFull
  | _, [] => []
  | i, (login, d) :: rest =>
    { rank := i
      avatarMd := avatarMdOf d.avatar
      login := login
      url := d.url
      commits := d.commits
      prs := d.prs
      issues := d.issues
      total := d.commits + d.prs + d.issues } :: buildRowsFullAux (i + 1) rest

/-- Rows of the PR/issue layout, ranks starting at 1. -/
def buildRowsFull (sortedUsers : List (String × UserData)) : List RowFull :=
  buildRowsFullAux 1 sortedUsers

/-- A row of the commits-only layout. -/
structure RowSimple where
  rank : Nat
  avatarMd : String
  login : String
  url : String
  commits : Int
deriving DecidableEq, Repr

/-- The enumerate(sorted_users, 1) loop of the commits-only layout. -/
def buildRowsSimpleAux : Nat → List (String × UserData) → List RowSimple
  | _, [] => []
  | i, (login, d) :: rest =>
    { rank := i
      avatarMd := avatarMdOf d.avatar
      login := login
      url := d.url
      commits := d.commits } :: buildRowsSimpleAux (i + 1) rest

/-- Rows of the commits-only layout, ranks starting at 1. -/
def buildRowsSimple (sortedUsers : List (String × UserData)) : List RowSimple :=
  buildRowsSimpleAux 1 sortedUsers

/-- The markdown text of one PR/issue-layout row. -/
def renderRowFull (r : RowFull) : String :=
  "| " ++ toString r.rank ++ " | " ++ r.avatarMd ++ " | [" ++ r.login ++ "](" ++
    r.url ++ ") | " ++ toString r.commits ++ " | " ++ toString r.prs ++ " | " ++
    toString r.issues ++ " | " ++ toString r.total ++ " |"

/-- The markdown text of one commits-only-layout row. -/
def renderRowSimple (r : RowSimple) : String :=
  "| " ++ toString r.rank ++ " | " ++ r.avatarMd ++ " | [" ++ r.login ++ "](" ++
    r.url ++ ") | " ++ toString r.commits ++ " |"

/-- build_markdown: header lines followed by one rendered row per sorted
user, joined by newlines. -/
def build_markdown (sortedUsers : List (String × UserData))
    (includePrsIssues : Bool) : String :=
  if includePrsIssues then
    String.intercalate "\n"
      (["# 🧑‍💻 All-time Contribution Leaderboard (Commits + PRs + Issues)\n",
        "| Rank | Avatar | User | Total Commits | PRs | Issues | Total |",
        "|------|---------|------|----------------|-----:|-------:|------:|"] ++
        (buildRowsFull sortedUsers).map renderRowFull)
  else
    String.intercalate "\n"
      (["# 🧑‍💻 All-time Contribution Leaderboard (Commits)\n",
        "| Rank | Avatar | User | Total Commits |",
        "|------|---------|------|----------------|"] ++
        (buildRowsSimple sortedUsers).map renderRowSimple)

/-- The logins rendered in the layout main selects: include_prs_issues
picks both the sort key and the layout. -/
def rowLogins (includePrsIssues : Bool) (users : List (String × UserData)) :
    List String :=
  if includePrsIssues then
    (buildRowsFull (sortUsers true users)).map RowFull.login
  else
    (buildRowsSimple (sortUsers false users)).map RowSimple.login

/-! ### Helper lemmas -/

/-- A response whose status is not 403 never signals a retry. -/
theorem handle_rate_limit_fst_false (now : Int) (resp : RespHead)
    (h : resp.status ≠ 403) : (handle_rate_limit now resp).1 = false := by
  simp [handle_rate_limit, h]

/-- The logins of the PR/issue-layout rows are the keys of the sorted
user list, in order. -/
theorem logins_buildRowsFullAux (i : Nat) (su : List (String × UserData)) :
    (buildRowsFullAux i su).map RowFull.login = su.map Prod.fst := by
  induction su generalizing i with
  | nil => rfl
  | cons p rest ih =>
    obtain ⟨l, d⟩ := p
    simp [buildRowsFullAux, ih]

/-- The logins of the commits-only-layout rows are the keys of the sorted
user list, in order. -/
theorem logins_buildRowsSimpleAux (i : Nat) (su : List (String × UserData)) :
    (buildRowsSimpleAux i su).map RowSimple.login = su.map Prod.fst := by
  induction su generalizing i with
  | nil => rfl
  | cons p rest ih =>
    obtain ⟨l, d⟩ := p
    simp [buildRowsSimpleAux, ih]

/-- Every PR/issue-layout row arises from an entry of the user list, with
the row fields copied from it and the total computed as the sum. -/
theorem mem_buildRowsFullAux :
    ∀ (i : Nat) (su : List (String × UserData)) (r : RowFull),
      r ∈ buildRowsFullAux i su →
      ∃ p ∈ su, r.login = p.1 ∧ r.commits = p.2.commits ∧ r.prs = p.2.prs ∧
        r.issues = p.2.issues ∧ r.total = p.2.commits + p.2.prs + p.2.issues
  | _, [], r, hr => by simp [buildRowsFullAux] at hr
  | i, (l, d) :: rest, r, hr => by
    rw [buildRowsFullAux] at hr
    rcases List.mem_cons.mp hr with h | h
    · subst h
      exact ⟨(l, d), List.mem_cons_self _ _, rfl, rfl, rfl, rfl, rfl⟩
    · obtain ⟨q, hq, hrest⟩ := mem_buildRowsFullAux (i + 1) rest r h
      exact ⟨q, List.mem_cons_of_mem _ hq, hrest⟩

/-- Every commits-only-layout row arises from an entry of the user list. -/
theorem mem_buildRowsSimpleAux :
    ∀ (i : Nat) (su : List (String × UserData)) (r : RowSimple),
      r ∈ buildRowsSimpleAux i su →
      ∃ p ∈ su, r.login = p.1 ∧ r.commits = p.2.commits
  | _, [], r, hr => by simp [buildRowsSimpleAux] at hr
  | i, (l, d) :: rest, r, hr => by
    rw [buildRowsSimpleAux] at hr
    rcases List.mem_cons.mp hr with h | h
    · subst h
      exact ⟨(l, d), List.mem_cons_self _ _, rfl, rfl⟩
    · obtain ⟨q, hq, hrest⟩ := mem_buildRowsSimpleAux (i + 1) rest r h
      exact ⟨q, List.mem_cons_of_mem _ hq, hrest⟩

/-- A user list sorted by non-increasing total yields PR/issue-layout rows
with non-increasing total. -/
theorem pairwise_buildRowsFullAux :
    ∀ (i : Nat) (su : List (String × UserData)),
      su.Pairwise (fun a b => sortKey true b.2 ≤ sortKey true a.2) →
      (buildRowsFullAux i su).Pairwise (fun r1 r2 => r2.total ≤ r1.total)
  | _, [], _ => by simp [buildRowsFullAux]
  | i, (l, d) :: rest, h => by
    rw [List.pairwise_cons] at h
    rw [buildRowsFullAux, List.pairwise_cons]
    refine ⟨fun r' hr' => ?_, pairwise_buildRowsFullAux (i + 1) rest h.2⟩
    obtain ⟨p, hp, _, _, _, _, htot⟩ := mem_buildRowsFullAux (i + 1) rest r' hr'
    have hk := h.1 p hp
    simp only [sortKey, if_pos rfl] at hk
    simpa [htot] using hk

/-- A user list sorted by non-increasing commits yields commits-only rows
with non-increasing commits. -/
theorem pairwise_buildRowsSimpleAux :
    ∀ (i : Nat) (su : List (String × UserData)),
      su.Pairwise (fun a b => sortKey false b.2 ≤ sortKey false a.2) →
      (buildRowsSimpleAux i su).Pairwise (fun r1 r2 => r2.commits ≤ r1.commits)
  | _, [], _ => by simp [buildRowsSimpleAux]
  | i, (l, d) :: rest, h => by
    rw [List.pairwise_cons] at h
    rw [buildRowsSimpleAux, List.pairwise_cons]
    refine ⟨fun r' hr' => ?_, pairwise_buildRowsSimpleAux (i + 1) rest h.2⟩
    obtain ⟨p, hp, _, hcom⟩ := mem_buildRowsSimpleAux (i + 1) rest r' hr'
    have hk := h.1 p hp
    simp only [sortKey, if_neg Bool.false_ne_true] at hk
    simpa [hcom] using hk

/-- sortUsers keeps exactly the entries of the user list. -/
theorem mem_sortUsers (m : Bool) (users : List (String × UserData))
    (p : String × UserData) : p ∈ sortUsers m users ↔ p ∈ users := by
  simp [sortUsers]

/-- sortUsers sorts into non-increasing key order. -/
theorem pairwise_sortUsers (m : Bool) (users : List (String × UserData)) :
    (sortUsers m users).Pairwise (fun a b => sortKey m b.2 ≤ sortKey m a.2) := by
  have h : (users.mergeSort (fun a b =>
        decide (sortKey m b.2 ≤ sortKey m a.2))).Pairwise
        (fun a b => decide (sortKey m b.2 ≤ sortKey m a.2) = true) :=
    List.sorted_mergeSort
      (fun a b c hab hbc => by
        simp only [decide_eq_true_eq] at hab hbc ⊢
        exact le_trans hbc hab)
      (fun a b => by
        simp only [Bool.or_eq_true, decide_eq_true_eq]
        exact le_total _ _)
      users
  exact h.imp fun hab => by simpa using hab

/-- updateCount leaves every other key unchanged. -/
theorem updateCount_ne (counts : String → Int) (l x : String) (v : Int) (h : x ≠ l) :
    updateCount counts l v x = counts x := by
  simp [updateCount, h]

/-- A login outside the participant set is never touched by the
contributors aggregation step. -/
theorem processContributor_apply_notMem (participants : List String)
    (counts : String → Int) (c : Contributor) (l : String) (h : l ∉ participants) :
    processContributor participants counts c l = counts l := by
  unfold processContributor
  cases c.login with
  | none => rfl
  | some l' =>
    by_cases hm : l' ∈ participants
    · have hne : l ≠ l' := fun he => h (he ▸ hm)
      simp [hm, updateCount_ne counts l' l _ hne]
    · simp [hm]

/-- A login outside the participant set is never touched by the
contributors fold of one repo. -/
theorem processRepo_apply_notMem (participants : List String) (l : String)
    (h : l ∉ participants) :
    ∀ (cs : List Contributor) (counts : String → Int),
      processRepo participants counts cs l = counts l
  | [], _ => rfl
  | c :: rest, counts => by
    show processRepo participants (processContributor participants counts c) rest l = _
    rw [processRepo_apply_notMem participants l h rest _,
      processContributor_apply_notMem participants counts c l h]

/-- A login outside the participant set has commit count 0 after the whole
contributors aggregation. -/
theorem commitsCountsRun_apply_notMem (participants : List String) (l : String)
    (h : l ∉ participants) (contribLists : List (List Contributor)) :
    commitsCountsRun participants contribLists l = 0 := by
  suffices hgen : ∀ (lss : List (List Contributor)) (counts : String → Int),
      lss.foldl (processRepo participants) counts l = counts l by
    exact hgen contribLists (fun _ => 0)
  intro lss
  induction lss with
  | nil => intro counts; rfl
  | cons cs rest ih =>
    intro counts
    rw [List.foldl_cons, ih, processRepo_apply_notMem participants l h cs counts]

/-- One PR/issue step leaves every login other than its own unchanged. -/
theorem issuesPrsStep_apply_ne (fetch : String → String → Nat × Nat) (repo : String)
    (ip : (String → Int) × (String → Int)) (login l : String) (h : l ≠ login) :
    (issuesPrsStep fetch repo ip login).1 l = ip.1 l ∧
    (issuesPrsStep fetch repo ip login).2 l = ip.2 l := by
  unfold issuesPrsStep
  constructor
  · by_cases h1 : (fetch repo login).1 ≠ 0
    · simp [h1, updateCount_ne _ _ _ _ h]
    · simp [h1]
  · by_cases h2 : (fetch repo login).2 ≠ 0
    · simp [h2, updateCount_ne _ _ _ _ h]
    · simp [h2]

/-- A login not in the folded list is never touched by the inner PR/issue
fold. -/
theorem foldl_issuesPrsStep_apply_notMem (fetch : String → String → Nat × Nat)
    (repo : String) (l : String) :
    ∀ (ls : List String), l ∉ ls → ∀ ip : (String → Int) × (String → Int),
      (ls.foldl (issuesPrsStep fetch repo) ip).1 l = ip.1 l ∧
      (ls.foldl (issuesPrsStep fetch repo) ip).2 l = ip.2 l
  | [], _, _ => ⟨rfl, rfl⟩
  | login :: rest, h, ip => by
    have hne : l ≠ login := fun he => h (he ▸ List.mem_cons_self _ _)
    have hrest : l ∉ rest := fun hm => h (List.mem_cons_of_mem _ hm)
    rw [List.foldl_cons]
    obtain ⟨e1, e2⟩ :=
      foldl_issuesPrsStep_apply_notMem fetch repo l rest hrest
        (issuesPrsStep fetch repo ip login)
    obtain ⟨s1, s2⟩ := issuesPrsStep_apply_ne fetch repo ip login l hne
    exact ⟨by rw [e1, s1], by rw [e2, s2]⟩

/-- A login outside the participant set has issue and PR counts 0 after
the whole PR/issue aggregation. -/
theorem issuesPrsRun_apply_notMem (participants : List String) (l : String)
    (h : l ∉ participants) (repos : List String) (fetch : String → String → Nat × Nat) :
    (issuesPrsRun participants repos fetch).1 l = 0 ∧
    (issuesPrsRun participants repos fetch).2 l = 0 := by
  suffices hgen : ∀ (rs : List String) (ip : (String → Int) × (String → Int)),
      (rs.foldl (fun ip repo => participants.foldl (issuesPrsStep fetch repo) ip) ip).1 l
        = ip.1 l ∧
      (rs.foldl (fun ip repo => participants.foldl (issuesPrsStep fetch repo) ip) ip).2 l
        = ip.2 l by
    exact hgen repos (fun _ => 0, fun _ => 0)
  intro rs
  induction rs with
  | nil => intro ip; exact ⟨rfl, rfl⟩
  | cons repo rest ih =>
    intro ip
    rw [List.foldl_cons]
    obtain ⟨e1, e2⟩ := ih (participants.foldl (issuesPrsStep fetch repo) ip)
    obtain ⟨s1, s2⟩ := foldl_issuesPrsStep_apply_notMem fetch repo l participants h ip
    exact ⟨by rw [e1, s1], by rw [e2, s2]⟩

/-- One contributors aggregation step keeps all counters non-negative when
the contributions value of the item is non-negative. -/
theorem processContributor_nonneg (participants : List String)
    (counts : String → Int) (c : Contributor) (hc : 0 ≤ c.contributions)
    (h : ∀ y, 0 ≤ counts y) (x : String) :
    0 ≤ processContributor participants counts c x := by
  unfold processContributor
  cases c.login with
  | none => exact h x
  | some l' =>
    by_cases hm : l' ∈ participants
    · simp only [if_pos hm, updateCount]
      by_cases he : x = l'
      · simp only [if_pos he]
        exact add_nonneg (h x) hc
      · simp only [if_neg he]
        exact h x
    · simp only [if_neg hm]
      exact h x

/-- The contributors fold of one repo keeps all counters non-negative
when all its contributions values are non-negative. -/
theorem processRepo_nonneg (participants : List String) :
    ∀ (cs : List Contributor) (counts : String → Int),
      (∀ c ∈ cs, 0 ≤ c.contributions) → (∀ y, 0 ≤ counts y) →
      ∀ x, 0 ≤ processRepo participants counts cs x
  | [], _, _, h, x => h x
  | c :: rest, counts, hcs, h, x => by
    show 0 ≤ processRepo participants (processContributor participants counts c) rest x
    exact processRepo_nonneg participants rest _
      (fun c' hc' => hcs c' (List.mem_cons_of_mem _ hc'))
      (processContributor_nonneg participants counts c
        (hcs c (List.mem_cons_self _ _)) h) x

/-- The commit counters are non-negative after the whole contributors
aggregation when every contributions value is non-negative. -/
theorem commitsCountsRun_nonneg (participants : List String)
    (contribLists : List (List Contributor))
    (h : ∀ cs ∈ contribLists, ∀ c ∈ cs, 0 ≤ c.contributions) (x : String) :
    0 ≤ commitsCountsRun participants contribLists x := by
  suffices hgen : ∀ (lss : List (List Contributor)) (counts : String → Int),
      (∀ cs ∈ lss, ∀ c ∈ cs, 0 ≤ c.contributions) → (∀ y, 0 ≤ counts y) →
      ∀ y, 0 ≤ lss.foldl (processRepo participants) counts y by
    exact hgen contribLists (fun _ => 0) h (fun _ => le_refl 0) x
  intro lss
  induction lss with
  | nil => intro counts _ h0 y; exact h0 y
  | cons cs rest ih =>
    intro counts hl h0 y
    rw [List.foldl_cons]
    exact ih (processRepo participants counts cs)
      (fun cs' hcs' => hl cs' (List.mem_cons_of_mem _ hcs'))
      (processRepo_nonneg participants cs counts
        (hl cs (List.mem_cons_self _ _)) h0) y

/-- One PR/issue step keeps both counters non-negative. -/
theorem issuesPrsStep_nonneg (fetch : String → String → Nat × Nat) (repo : String)
    (ip : (String → Int) × (String → Int)) (login : String)
    (h1 : ∀ y, 0 ≤ ip.1 y) (h2 : ∀ y, 0 ≤ ip.2 y) :
    (∀ y, 0 ≤ (issuesPrsStep fetch repo ip login).1 y) ∧
    (∀ y, 0 ≤ (issuesPrsStep fetch repo ip login).2 y) := by
  unfold issuesPrsStep
  constructor
  · intro y
    by_cases hz : (fetch repo login).1 ≠ 0
    · simp only [if_pos hz, updateCount]
      by_cases he : y = login
      · simp only [if_pos he]
        exact add_nonneg (h1 y) (Int.natCast_nonneg _)
      · simp only [if_neg he]
        exact h1 y
    · simp only [if_neg hz]
      exact h1 y
  · intro y
    by_cases hz : (fetch repo login).2 ≠ 0
    · simp only [if_pos hz, updateCount]
      by_cases he : y = login
      · simp only [if_pos he]
        exact add_nonneg (h2 y) (Int.natCast_nonneg _)
      · simp only [if_neg he]
        exact h2 y
    · simp only [if_neg hz]
      exact h2 y

/-- The inner PR/issue fold keeps both counters non-negative. -/
theorem foldl_issuesPrsStep_nonneg (fetch : String → String → Nat × Nat)
    (repo : String) :
    ∀ (ls : List String) (ip : (String → Int) × (String → Int)),
      (∀ y, 0 ≤ ip.1 y) → (∀ y, 0 ≤ ip.2 y) →
      (∀ y, 0 ≤ (ls.foldl (issuesPrsStep fetch repo) ip).1 y) ∧
      (∀ y, 0 ≤ (ls.foldl (issuesPrsStep fetch repo) ip).2 y)
  | [], _, h1, h2 => ⟨h1, h2⟩
  | login :: rest, ip, h1, h2 => by
    rw [List.foldl_cons]
    obtain ⟨s1, s2⟩ := issuesPrsStep_nonneg fetch repo ip login h1 h2
    exact foldl_issuesPrsStep_nonneg fetch repo rest _ s1 s2

/-- The issue and PR counters are non-negative after the whole PR/issue
aggregation. -/
theorem issuesPrsRun_nonneg (participants : List String) (repos : List String)
    (fetch : String → String → Nat × Nat) :
    (∀ y, 0 ≤ (issuesPrsRun participants repos fetch).1 y) ∧
    (∀ y, 0 ≤ (issuesPrsRun participants repos fetch).2 y) := by
  suffices hgen : ∀ (rs : List String) (ip : (String → Int) × (String → Int)),
      (∀ y, 0 ≤ ip.1 y) → (∀ y, 0 ≤ ip.2 y) →
      (∀ y, 0 ≤ (rs.foldl (fun ip repo =>
        participants.foldl (issuesPrsStep fetch repo) ip) ip).1 y) ∧
      (∀ y, 0 ≤ (rs.foldl (fun ip repo =>
        participants.foldl (issuesPrsStep fetch repo) ip) ip).2 y) by
    exact hgen repos (fun _ => 0, fun _ => 0) (fun _ => le_refl 0) (fun _ => le_refl 0)
  intro rs
  induction rs with
  | nil => intro ip h1 h2; exact ⟨h1, h2⟩
  | cons repo rest ih =>
    intro ip h1 h2
    rw [List.foldl_cons]
    obtain ⟨s1, s2⟩ := foldl_issuesPrsStep_nonneg fetch repo participants ip h1 h2
    exact ih _ s1 s2

/-- A login is a key of the users dict iff it is a participant that
survives the zero-total filter. -/
theorem mem_map_fst_buildUsers (includeZero : Bool) (participants : List String)
    (commits prs issues : String → Int) (meta : String → UserMeta) (l : String) :
    l ∈ (buildUsers includeZero participants commits prs issues meta).map Prod.fst ↔
      l ∈ participants ∧
        ¬(includeZero = false ∧ commits l + prs l + issues l = 0) := by
  constructor
  · intro hl
    obtain ⟨p, hp, hpl⟩ := List.mem_map.mp hl
    obtain ⟨a, ha, hfa⟩ := List.mem_filterMap.mp hp
    split at hfa
    · exact absurd hfa (by simp)
    · rename_i hcond
      cases Option.some.inj hfa
      subst hpl
      exact ⟨ha, hcond⟩
  · rintro ⟨hl, hcond⟩
    refine List.mem_map.mpr
      ⟨(l, ⟨(meta l).avatar, (meta l).url, commits l, prs l, issues l⟩), ?_, rfl⟩
    exact List.mem_filterMap.mpr ⟨l, hl, by simp [hcond]⟩

/-- The rendered logins of either layout are the keys of the sorted user
list. -/
theorem rowLogins_eq_map_fst (m : Bool) (users : List (String × UserData)) :
    rowLogins m users = (sortUsers m users).map Prod.fst := by
  cases m with
  | false => simp [rowLogins, buildRowsSimple, logins_buildRowsSimpleAux]
  | true => simp [rowLogins, buildRowsFull, logins_buildRowsFullAux]

/-- Sorting does not change which logins are keys of the user list. -/
theorem mem_map_fst_sortUsers (m : Bool) (users : List (String × UserData))
    (l : String) :
    l ∈ (sortUsers m users).map Prod.fst ↔ l ∈ users.map Prod.fst := by
  simp [sortUsers]

/-- C1: every row of either leaderboard layout carries the login of a
loaded participant, and logins outside the participant set have all three
counters at their default 0 — they are never counted. -/
theorem leaderboard_logins_subset_participants (participants : List String)
    (contribLists : List (List Contributor)) (repos : List String)
    (fetch : String → String → Nat × Nat) (includeZero : Bool)
    (meta : String → UserMeta) :
    (∀ r ∈ buildRowsFull (sortUsers true (buildUsers includeZero participants
        (commitsCountsRun participants contribLists)
        (issuesPrsRun participants repos fetch).2
        (issuesPrsRun participants repos fetch).1 meta)), r.login ∈ participants) ∧
    (∀ r ∈ buildRowsSimple (sortUsers false (buildUsers includeZero participants
        (commitsCountsRun participants contribLists)
        (issuesPrsRun participants repos fetch).2
        (issuesPrsRun participants repos fetch).1 meta)), r.login ∈ participants) ∧
    (∀ l, l ∉ participants →
      commitsCountsRun participants contribLists l = 0 ∧
      (issuesPrsRun participants repos fetch).1 l = 0 ∧
      (issuesPrsRun participants repos fetch).2 l = 0) := by
  refine ⟨?_, ?_, ?_⟩
  · intro r hr
    unfold buildRowsFull at hr
    obtain ⟨p, hp, hlog, -⟩ := mem_buildRowsFullAux 1 _ r hr
    have hp' : p.1 ∈ (buildUsers includeZero participants
        (commitsCountsRun participants contribLists)
        (issuesPrsRun participants repos fetch).2
        (issuesPrsRun participants repos fetch).1 meta).map Prod.fst :=
      List.mem_map_of_mem _ ((mem_sortUsers _ _ _).mp hp)
    rw [hlog]
    exact ((mem_map_fst_buildUsers _ _ _ _ _ _ _).mp hp').1
  · intro r hr
    unfold buildRowsSimple at hr
    obtain ⟨p, hp, hlog, -⟩ := mem_buildRowsSimpleAux 1 _ r hr
    have hp' : p.1 ∈ (buildUsers includeZero participants
        (commitsCountsRun participants contribLists)
        (issuesPrsRun participants repos fetch).2
        (issuesPrsRun participants repos fetch).1 meta).map Prod.fst :=
      List.mem_map_of_mem _ ((mem_sortUsers _ _ _).mp hp)
    rw [hlog]
    exact ((mem_map_fst_buildUsers _ _ _ _ _ _ _).mp hp').1
  · intro l hl
    exact ⟨commitsCountsRun_apply_notMem participants l hl contribLists,
      (issuesPrsRun_apply_notMem participants l hl repos fetch).1,
      (issuesPrsRun_apply_notMem participants l hl repos fetch).2⟩

/-- Witness for leaderboard_logins_subset_participants at a concrete run
with one participant, one repo of contributor data, and one repo of
PR/issue data. -/
theorem leaderboard_logins_subset_participants_witness :
    (∀ r ∈ buildRowsFull (sortUsers true (buildUsers false ["a"]
        (commitsCountsRun ["a"] [[⟨some "a", 2⟩]])
        (issuesPrsRun ["a"] ["r"] (fun _ _ => (1, 1))).2
        (issuesPrsRun ["a"] ["r"] (fun _ _ => (1, 1))).1
        (fun _ => ⟨"", "u"⟩))), r.login ∈ ["a"]) ∧
    (∀ r ∈ buildRowsSimple (sortUsers false (buildUsers false ["a"]
        (commitsCountsRun ["a"] [[⟨some "a", 2⟩]])
        (issuesPrsRun ["a"] ["r"] (fun _ _ => (1, 1))).2
        (issuesPrsRun ["a"] ["r"] (fun _ _ => (1, 1))).1
        (fun _ => ⟨"", "u"⟩))), r.login ∈ ["a"]) ∧
    (∀ l, l ∉ ["a"] →
      commitsCountsRun ["a"] [[⟨some "a", 2⟩]] l = 0 ∧
      (issuesPrsRun ["a"] ["r"] (fun _ _ => (1, 1))).1 l = 0 ∧
      (issuesPrsRun ["a"] ["r"] (fun _ _ => (1, 1))).2 l = 0) :=
  leaderboard_logins_subset_participants ["a"] [[⟨some "a", 2⟩]] ["r"]
    (fun _ _ => (1, 1)) false (fun _ => ⟨"", "u"⟩)

/-- C2: every row of the PR/issue layout prints in its Total column the
sum of its commits, PRs and issues columns. -/
theorem total_column_eq_sum (sortedUsers : List (String × UserData)) (r : RowFull)
    (hr : r ∈ buildRowsFull sortedUsers) :
    r.total = r.commits + r.prs + r.issues := by
  unfold buildRowsFull at hr
  obtain ⟨p, -, -, hc, hp, hi, ht⟩ := mem_buildRowsFullAux 1 sortedUsers r hr
  rw [ht, hc, hp, hi]

/-- Witness for total_column_eq_sum on a concrete one-row table. -/
theorem total_column_eq_sum_witness :
    (⟨1, "", "a", "u", 2, 3, 4, 9⟩ : RowFull).total =
      (⟨1, "", "a", "u", 2, 3, 4, 9⟩ : RowFull).commits +
        (⟨1, "", "a", "u", 2, 3, 4, 9⟩ : RowFull).prs +
        (⟨1, "", "a", "u", 2, 3, 4, 9⟩ : RowFull).issues :=
  total_column_eq_sum [("a", ⟨"", "u", 2, 3, 4⟩)] ⟨1, "", "a", "u", 2, 3, 4, 9⟩
    (by decide)

/-- C3: the rows of the leaderboard are in non-increasing order of the
sort key — the total in the PR/issue layout, the commit count in the
commits-only layout. -/
theorem rows_sorted_by_key (users : List (String × UserData)) :
    (buildRowsFull (sortUsers true users)).Pairwise
      (fun r1 r2 => r2.total ≤ r1.total) ∧
    (buildRowsSimple (sortUsers false users)).Pairwise
      (fun r1 r2 => r2.commits ≤ r1.commits) :=
  ⟨pairwise_buildRowsFullAux 1 _ (pairwise_sortUsers true users),
   pairwise_buildRowsSimpleAux 1 _ (pairwise_sortUsers false users)⟩

/-- C4: the login of a participant is rendered iff zero-inclusion is on
or the total of that participant is nonzero; in particular nonzero-total participants
always appear. -/
theorem zero_total_inclusion_iff (includeZero includePrsIssues : Bool)
    (participants : List String) (commits prs issues : String → Int)
    (meta : String → UserMeta) (l : String) (hl : l ∈ participants) :
    (l ∈ rowLogins includePrsIssues
        (buildUsers includeZero participants commits prs issues meta) ↔
      (includeZero = true ∨ commits l + prs l + issues l ≠ 0)) := by
  rw [rowLogins_eq_map_fst, mem_map_fst_sortUsers, mem_map_fst_buildUsers]
  constructor
  · rintro ⟨-, hc⟩
    cases includeZero with
    | false => exact Or.inr fun ht => hc ⟨rfl, ht⟩
    | true => exact Or.inl rfl
  · intro h
    refine ⟨hl, ?_⟩
    rintro ⟨hiz, ht⟩
    rcases h with h | h
    · rw [hiz] at h
      exact Bool.false_ne_true h
    · exact h ht

/-- Witness for zero_total_inclusion_iff: with zero-inclusion on, the
zero-total participant "a" appears. -/
theorem zero_total_inclusion_iff_witness :
    ("a" ∈ rowLogins false (buildUsers true ["a"] (fun _ => 0) (fun _ => 0)
        (fun _ => 0) (fun _ => ⟨"", ""⟩)) ↔
      (true = true ∨ (0 : Int) + 0 + 0 ≠ 0)) :=
  zero_total_inclusion_iff true false ["a"] (fun _ => 0) (fun _ => 0) (fun _ => 0)
    (fun _ => ⟨"", ""⟩) "a" (by decide)

/-- C10 (counterexample): a contributors item whose contributions field is
-1 for participant "a" drives the accumulated commit count negative, so
the counters are not never-negative under arbitrary endpoint values. -/
theorem negative_contributions_counterexample :
    commitsCountsRun ["a"] [[⟨some "a", -1⟩]] "a" = -1 ∧
    ¬ (0 ≤ commitsCountsRun ["a"] [[⟨some "a", -1⟩]] "a") := by
  decide

/-- C10 (amended): when every contributions value the endpoint supplies is
non-negative, every aggregation step preserves non-negativity of the
commit counters (so they are non-negative at every point of the run), the
final commit counters are non-negative, and the issue and PR counters are
non-negative unconditionally. -/
theorem counts_nonneg_of_nonneg_contributions (participants : List String)
    (contribLists : List (List Contributor)) (repos : List String)
    (fetch : String → String → Nat × Nat)
    (h : ∀ cs ∈ contribLists, ∀ c ∈ cs, 0 ≤ c.contributions) :
    (∀ (counts : String → Int) (c : Contributor) (x : String),
        (∀ y, 0 ≤ counts y) → 0 ≤ c.contributions →
        0 ≤ processContributor participants counts c x) ∧
    (∀ x, 0 ≤ commitsCountsRun participants contribLists x) ∧
    (∀ x, 0 ≤ (issuesPrsRun participants repos fetch).1 x) ∧
    (∀ x, 0 ≤ (issuesPrsRun participants repos fetch).2 x) :=
  ⟨fun counts c x hc hcc => processContributor_nonneg participants counts c hcc hc x,
   fun x => commitsCountsRun_nonneg participants contribLists h x,
   (issuesPrsRun_nonneg participants repos fetch).1,
   (issuesPrsRun_nonneg participants repos fetch).2⟩

/-- Witness for counts_nonneg_of_nonneg_contributions at a concrete run. -/
theorem counts_nonneg_of_nonneg_contributions_witness :
    (∀ (counts : String → Int) (c : Contributor) (x : String),
        (∀ y, 0 ≤ counts y) → 0 ≤ c.contributions →
        0 ≤ processContributor ["a"] counts c x) ∧
    (∀ x, 0 ≤ commitsCountsRun ["a"] [[⟨some "a", 2⟩]] x) ∧
    (∀ x, 0 ≤ (issuesPrsRun ["a"] ["r"] (fun _ _ => (1, 1))).1 x) ∧
    (∀ x, 0 ≤ (issuesPrsRun ["a"] ["r"] (fun _ _ => (1, 1))).2 x) :=
  counts_nonneg_of_nonneg_contributions ["a"] [[⟨some "a", 2⟩]] ["r"]
    (fun _ _ => (1, 1)) (by decide)

/-- C7 (counterexample): a 403 response with Remaining "0" whose Reset
timestamp lies in the past (reset 0, now 10).  The script sleeps
max(0, reset - now) + 2 = 2 seconds, but the claimed formula
reset - now + buffer gives -8, so the claimed sleep duration is wrong. -/
theorem rate_limit_sleep_counterexample :
    (handle_rate_limit 10 ⟨403, some "0", some 0⟩).1 = true ∧
    (handle_rate_limit 10 ⟨403, some "0", some 0⟩).2 = some 2 ∧
    ¬ ((0 : Int) - 10 + 2 = 2) := by
  decide

/-- C7 (amended): handle_rate_limit signals a retry iff the status is 403,
the Remaining header is the string "0" and a Reset header is present; in
that case the sleep performed is max(0, reset - now) + 2 seconds, clamping
a reset in the past to the two-second buffer; otherwise it signals no
action and performs no sleep. -/
theorem handle_rate_limit_spec (now : Int) (resp : RespHead) :
    ((handle_rate_limit now resp).1 = true ↔
      resp.status = 403 ∧ resp.rateLimitRemaining = some "0" ∧
        resp.rateLimitReset.isSome = true) ∧
    (∀ reset : Int, resp.status = 403 → resp.rateLimitRemaining = some "0" →
      resp.rateLimitReset = some reset →
      (handle_rate_limit now resp).2 = some (max 0 (reset - now) + 2)) ∧
    ((handle_rate_limit now resp).1 = false → (handle_rate_limit now resp).2 = none) := by
  obtain ⟨st, rem, rst⟩ := resp
  by_cases hst : st = 403
  · subst hst
    cases rem with
    | none => simp [handle_rate_limit]
    | some r =>
      cases rst with
      | none => simp [handle_rate_limit]
      | some t =>
        by_cases hr : r = "0"
        · subst hr; simp [handle_rate_limit]
        · simp [handle_rate_limit, hr]
  · simp [handle_rate_limit, hst]

/-- Witness for handle_rate_limit_spec at a concrete rate-limited response. -/
theorem handle_rate_limit_spec_witness :
    (handle_rate_limit 0 ⟨403, some "0", some 7⟩).1 = true ∧
    (handle_rate_limit 0 ⟨403, some "0", some 7⟩).2 = some (max 0 ((7 : Int) - 0) + 2) :=
  ⟨((handle_rate_limit_spec 0 ⟨403, some "0", some 7⟩).1).mpr (by decide),
   (handle_rate_limit_spec 0 ⟨403, some "0", some 7⟩).2.1 7 rfl rfl rfl⟩

/-- C8: in both pagination loops, a non-success response that does not
signal a rate limit ends the loop at once, and the items (or counts)
accumulated from earlier pages are returned unchanged. -/
theorem non_success_stops_paging (now : Int) (page : Nat)
    (rc : Response Contributor) (restc : List (Response Contributor))
    (acc : List Contributor) (tc : List Nat)
    (ri : Response IssueItem) (resti : List (Response IssueItem))
    (ic pc : Nat) (ti : List Nat)
    (hc1 : (handle_rate_limit now rc.toRespHead).1 = false) (hc2 : rc.status ≠ 200)
    (hi1 : (handle_rate_limit now ri.toRespHead).1 = false) (hi2 : ri.status ≠ 200) :
    fetchContributorsAux now (rc :: restc) page acc tc = (some acc, tc ++ [page]) ∧
    fetchIssuesAux now (ri :: resti) page ic pc ti = (some (ic, pc), ti ++ [page]) := by
  constructor
  · simp [fetchContributorsAux, hc1, hc2]
  · simp [fetchIssuesAux, hi1, hi2]

/-- Witness for non_success_stops_paging: a 500 response on page 5 keeps
the one contributor and the counts (2, 3) collected earlier. -/
theorem non_success_stops_paging_witness :
    fetchContributorsAux 0 [⟨⟨500, none, none⟩, []⟩] 5 [⟨some "a", 3⟩] [1] =
      (some [⟨some "a", 3⟩], [1] ++ [5]) ∧
    fetchIssuesAux 0 [⟨⟨500, none, none⟩, []⟩] 5 2 3 [4] = (some (2, 3), [4] ++ [5]) :=
  non_success_stops_paging 0 5 ⟨⟨500, none, none⟩, []⟩ [] [⟨some "a", 3⟩] [1]
    ⟨⟨500, none, none⟩, []⟩ [] 2 3 [4] (by decide) (by decide) (by decide) (by decide)

/-- C9: when the (possibly retried) profile lookup response is not a 200,
get_user_meta returns the fallback record: empty avatar and the
constructed profile URL. -/
theorem user_meta_fallback (now : Int) (login : String) (resp1 resp2 : UserResponse)
    (h : (if (handle_rate_limit now resp1.toRespHead).1 then resp2 else resp1).status ≠ 200) :
    get_user_meta now login resp1 resp2 =
      { avatar := "", url := "https://github.com/" ++ login } := by
  simp only [get_user_meta]
  rw [if_neg h]

/-- Witness for user_meta_fallback: a 404 profile lookup yields the
fallback record. -/
theorem user_meta_fallback_witness :
    get_user_meta 0 "octocat" ⟨⟨404, none, none⟩, none, none⟩
        ⟨⟨200, none, none⟩, none, none⟩ =
      { avatar := "", url := "https://github.com/" ++ "octocat" } :=
  user_meta_fallback 0 "octocat" ⟨⟨404, none, none⟩, none, none⟩
    ⟨⟨200, none, none⟩, none, none⟩ (by decide)

/-- C5: two successive full pages (PER_PAGE items each) followed by an
empty page make fetch_contributors_for_repo return the concatenation of
both pages, having requested exactly pages 1, 2, 3. -/
theorem two_full_pages_concatenated (now : Int) (p1 p2 : List Contributor)
    (h1 : p1.length = PER_PAGE) (h2 : p2.length = PER_PAGE) :
    fetch_contributors_for_repo now
      [⟨⟨200, none, none⟩, p1⟩, ⟨⟨200, none, none⟩, p2⟩, ⟨⟨200, none, none⟩, []⟩] =
      (some (p1 ++ p2), [1, 2, 3]) := by
  have hp1 : ¬ p1 = [] := by intro h; subst h; simp [PER_PAGE] at h1
  have hp2 : ¬ p2 = [] := by intro h; subst h; simp [PER_PAGE] at h2
  have hn1 : ¬ p1.length < PER_PAGE := by omega
  have hn2 : ¬ p2.length < PER_PAGE := by omega
  simp [fetch_contributors_for_repo, fetchContributorsAux, handle_rate_limit,
    hp1, hp2, hn1, hn2]

/-- Witness for two_full_pages_concatenated with two concrete pages of
100 items. -/
theorem two_full_pages_concatenated_witness :
    fetch_contributors_for_repo 0
      [⟨⟨200, none, none⟩, List.replicate 100 ⟨some "a", 1⟩⟩,
       ⟨⟨200, none, none⟩, List.replicate 100 ⟨none, 0⟩⟩,
       ⟨⟨200, none, none⟩, []⟩] =
      (some (List.replicate 100 ⟨some "a", 1⟩ ++ List.replicate 100 ⟨none, 0⟩),
        [1, 2, 3]) :=
  two_full_pages_concatenated 0 (List.replicate 100 ⟨some "a", 1⟩)
    (List.replicate 100 ⟨none, 0⟩) (by simp [PER_PAGE]) (by simp [PER_PAGE])

/-- C6: a rate-limited response followed by a success response makes the
contributors loop request the same page number twice (the page counter is
not incremented by the retry), and the items of a short success page are
returned exactly once. -/
theorem rate_limit_retries_same_page (now : Int) (n : Nat) (rl s : Response Contributor)
    (hrl : (handle_rate_limit now rl.toRespHead).1 = true) (hs : s.status = 200) :
    (fetchContributorsAux now [rl, s] n [] []).2 = [n, n] ∧
    (s.body.length < PER_PAGE →
      (fetchContributorsAux now [rl, s] n [] []).1 = some s.body) := by
  have hs' : (handle_rate_limit now s.toRespHead).1 = false :=
    handle_rate_limit_fst_false now s.toRespHead (by rw [hs]; decide)
  constructor
  · by_cases hb : s.body = []
    · simp [fetchContributorsAux, hrl, hs', hs, hb]
    · by_cases hlen : s.body.length < PER_PAGE
      · simp [fetchContributorsAux, hrl, hs', hs, hb, hlen]
      · simp [fetchContributorsAux, hrl, hs', hs, hb, hlen]
  · intro hlen
    by_cases hb : s.body = []
    · simp [fetchContributorsAux, hrl, hs', hs, hb]
    · simp [fetchContributorsAux, hrl, hs', hs, hb, hlen]

/-- Witness for rate_limit_retries_same_page: page 7 is requested twice
and the single item of the success page is kept once. -/
theorem rate_limit_retries_same_page_witness :
    (fetchContributorsAux 0
      [⟨⟨403, some "0", some 0⟩, []⟩, ⟨⟨200, none, none⟩, [⟨some "b", 2⟩]⟩]
      7 [] []).2 = [7, 7] ∧
    (([(⟨some "b", 2⟩ : Contributor)]).length < PER_PAGE →
      (fetchContributorsAux 0
        [⟨⟨403, some "0", some 0⟩, []⟩, ⟨⟨200, none, none⟩, [⟨some "b", 2⟩]⟩]
        7 [] []).1 = some [⟨some "b", 2⟩]) :=
  rate_limit_retries_same_page 0 7 ⟨⟨403, some "0", some 0⟩, []⟩
    ⟨⟨200, none, none⟩, [⟨some "b", 2⟩]⟩ (by decide) (by decide)

end ContribTracker
